import Mathlib

/- Shallow embedding of the spark-ai-provider conversion and streaming
engine (message converters, tool preparation, non-stream response decoding,
and the chat streaming transform), together with theorems checking the
written specification against the code. -/

namespace Spark

/- JSON values, modelling the JavaScript object values carried in prompts
(tool-call argument objects, tool results, provider metadata bags). -/
inductive Json where
  | null
  | bool (b : Bool)
  | num (n : Int)
  | str (s : String)
  | arr (elems : List Json)
  | obj (fields : List (String × Json))

/- Model of the external `JSON.stringify` collaborator (compact output). -/
def escapeStringChars : List Char → List Char
  | [] => []
  | '"' :: rest => '\\' :: '"' :: escapeStringChars rest
  | '\\' :: rest => '\\' :: '\\' :: escapeStringChars rest
  | c :: rest => c :: escapeStringChars rest

def escapeString (s : String) : String :=
  String.mk (escapeStringChars s.data)

mutual
def Json.stringify : Json → String
  | .null => "null"
  | .bool true => "true"
  | .bool false => "false"
  | .num n => toString n
  | .str s => "\"" ++ escapeString s ++ "\""
  | .arr elems => "[" ++ stringifyList elems ++ "]"
  | .obj fields => "\x7b" ++ stringifyFields fields ++ "\x7d"

def stringifyList : List Json → String
  | [] => ""
  | [v] => Json.stringify v
  | v :: rest => Json.stringify v ++ "," ++ stringifyList rest

def stringifyFields : List (String × Json) → String
  | [] => ""
  | [(k, v)] => "\"" ++ escapeString k ++ "\":" ++ Json.stringify v
  | (k, v) :: rest =>
      "\"" ++ escapeString k ++ "\":" ++ Json.stringify v ++ "," ++ stringifyFields rest
end

/- Provider-specific metadata bag (`providerMetadata.spark`), an untyped
key/value object merged into output messages without validation. -/
abbrev Meta := List (String × Json)

/- Image sources in user content: a URL, or raw bytes; the external base64
encoder (`convertUint8ArrayToBase64`) is modelled as already applied, so the
bytes variant carries its base64 rendering. -/
inductive ImageSource where
  | url (u : String)
  | bytes (base64Data : String) (mimeType : Option String)

/- User-message content parts of the provider-agnostic prompt. -/
inductive UserPart where
  | text (text : String) (meta : Meta)
  | image (source : ImageSource) (meta : Meta)
  | file (meta : Meta)

/- Assistant-message content parts of the provider-agnostic prompt. -/
inductive AssistantPart where
  | text (text : String) (meta : Meta)
  | toolCall (toolCallId : String) (toolName : String) (args : Json) (meta : Meta)

/- One tool result entry inside a tool-role message. -/
structure ToolResponse where
  toolCallId : String
  result : Json
  meta : Meta

/- A provider-agnostic prompt message (LanguageModelV1Prompt element). -/
inductive PromptMessage where
  | system (content : String) (meta : Meta)
  | user (content : List UserPart) (meta : Meta)
  | assistant (content : List AssistantPart) (meta : Meta)
  | tool (content : List ToolResponse) (meta : Meta)

/- Errors thrown by the converters: `UnsupportedFunctionalityError`,
`InvalidPromptError`, and the plain `Error` of default switch branches. -/
inductive ConvError where
  | unsupportedFunctionality (functionality : String)
  | invalidPrompt (message : String)
  | other (message : String)
deriving DecidableEq

/- Vendor-format content part of a multi-part user message. -/
inductive SparkContentPart where
  | text (text : String) (extra : Meta)
  | imageUrl (url : String) (extra : Meta)

/- The `function` object of an assistant message tool call. -/
structure SparkFnCall where
  name : String
  arguments : String

/- The `tool_calls` object built for assistant messages
(`type` is always the literal "function"). -/
structure SparkToolCalls where
  fn : SparkFnCall
  extra : Meta

/- Vendor chat message (SparkChatPrompt element). -/
inductive SparkMessage where
  | system (content : String) (extra : Meta)
  | userStr (content : String) (extra : Meta)
  | userParts (content : List SparkContentPart) (extra : Meta)
  | assistant (content : String) (tool_calls : Option SparkToolCalls) (extra : Meta)
  | tool (tool_call_id : String) (content : String) (extra : Meta)

/- Conversion of a single user content part
(`convert-to-spark-message.ts`, user branch of the part switch). -/
def convertUserPart : UserPart → Except ConvError SparkContentPart
  | .text t m => .ok (.text t m)
  | .image (.url u) m => .ok (.imageUrl u m)
  | .image (.bytes data mime) m =>
      .ok (.imageUrl ("data:" ++ mime.getD "image/jpeg" ++ ";base64," ++ data) m)
  | .file _ => .error (.unsupportedFunctionality "File content parts in user messages")

/- `content.map(...)` over user parts; a throw inside the callback aborts
the whole conversion. -/
def convertUserParts : List UserPart → Except ConvError (List SparkContentPart)
  | [] => .ok []
  | part :: rest =>
      match convertUserPart part with
      | .error e => .error e
      | .ok p =>
          match convertUserParts rest with
          | .error e => .error e
          | .ok ps => .ok (p :: ps)

/- The assistant-message fold: `text` accumulates all text parts in order;
`toolCalls` starts as the placeholder object with empty name/arguments and is
overwritten by every `tool-call` part (last write wins). -/
def assistantFold (parts : List AssistantPart) : String × SparkToolCalls :=
  parts.foldl
    (fun acc part =>
      match part with
      | .text t _ => (acc.1 ++ t, acc.2)
      | .toolCall _ name args partMeta =>
          (acc.1, ⟨⟨name, Json.stringify args⟩, partMeta⟩))
    ("", ⟨⟨"", ""⟩, []⟩)

/- Conversion of one prompt message to the (possibly several) vendor
messages it produces (body of the role switch in
`convertToSparkChatMessages`). -/
def convertChatMessage : PromptMessage → Except ConvError (List SparkMessage)
  | .system content meta => .ok [.system content meta]
  | .user content meta =>
      match content with
      | [UserPart.text t partMeta] => .ok [.userStr t partMeta]
      | parts => (convertUserParts parts).map (fun ps => [.userParts ps meta])
  | .assistant content meta =>
      let folded := assistantFold content
      -- source: `tool_calls: toolCalls ? toolCalls : undefined`; `toolCalls`
      -- is initialized to a non-null object, hence always truthy, so the
      -- `undefined` branch is dead code and `tool_calls` is always present
      .ok [.assistant folded.1 (some folded.2) meta]
  | .tool content _meta =>
      .ok (content.map fun tr =>
        .tool tr.toolCallId (Json.stringify tr.result) tr.meta)

def convertChatMessagesGo : List PromptMessage → Except ConvError (List SparkMessage)
  | [] => .ok []
  | msg :: rest =>
      match convertChatMessage msg with
      | .error e => .error e
      | .ok ms =>
          match convertChatMessagesGo rest with
          | .error e => .error e
          | .ok tail => .ok (ms ++ tail)

/- `convertToSparkChatMessages` from `convert-to-spark-message.ts`. -/
def convertToSparkChatMessages (prompt : List PromptMessage) :
    Except ConvError (List SparkMessage) :=
  convertChatMessagesGo prompt

/- The `inputFormat` option of the completion prompt converter. -/
inductive InputFormat where
  | prompt
  | messages
deriving DecidableEq

/- Result of `convertToSparkCompletionPrompt`. -/
structure CompletionPromptResult where
  prompt : String
  stopSequences : Option (List String)
deriving DecidableEq

/- The fast-path test of `convertToSparkCompletionPrompt`: exactly one
message, of role user, with exactly one part, of type text; returns that
text when it applies. -/
def singleUserText : List PromptMessage → Option String
  | [msg] =>
      match msg with
      | .user parts _ =>
          match parts with
          | [part] =>
              match part with
              | .text t _ => some t
              | _ => none
          | _ => none
      | _ => none
  | _ => none

/- `content.map(...).join("")` over the parts of a user message in the
completion path: text passes through, images throw
`UnsupportedFunctionalityError`, any other part type throws a plain
`Error` naming the part type. -/
def renderUserParts : List UserPart → Except ConvError String
  | [] => .ok ""
  | .text t _ :: rest => (renderUserParts rest).map (t ++ ·)
  | .image _ _ :: _ => .error (.unsupportedFunctionality "images")
  | .file _ :: _ => .error (.other "Unsupported content part type: file")

/- Same for assistant messages: text passes through, tool-call parts throw
`UnsupportedFunctionalityError`. -/
def renderAssistantParts : List AssistantPart → Except ConvError String
  | [] => .ok ""
  | .text t _ :: rest => (renderAssistantParts rest).map (t ++ ·)
  | .toolCall _ _ _ _ :: _ => .error (.unsupportedFunctionality "tool-call messages")

/- The message loop of `convertToSparkCompletionPrompt`, run on the prompt
after an optional leading system message was consumed: any remaining system
message throws `InvalidPromptError`; user and assistant messages are
rendered as labelled transcript blocks; tool messages throw. -/
def renderCompletionMessages (user assistant : String) :
    List PromptMessage → Except ConvError String
  | [] => .ok ""
  | .system content _ :: _ =>
      .error (.invalidPrompt ("Unexpected system message in prompt: " ++ content))
  | .user parts _ :: rest =>
      (match renderUserParts parts with
       | .error e => .error e
       | .ok userMessage =>
           match renderCompletionMessages user assistant rest with
           | .error e => .error e
           | .ok tail => .ok (user ++ ":\n" ++ userMessage ++ "\n\n" ++ tail))
  | .assistant parts _ :: rest =>
      (match renderAssistantParts parts with
       | .error e => .error e
       | .ok assistantMessage =>
           match renderCompletionMessages user assistant rest with
           | .error e => .error e
           | .ok tail => .ok (assistant ++ ":\n" ++ assistantMessage ++ "\n\n" ++ tail))
  | .tool _ _ :: _ => .error (.unsupportedFunctionality "tool messages")

/- Final assembly of the transcript: leading system content (if any), the
rendered messages, and the trailing assistant label, plus the synthetic
stop sequence. -/
def completionBody (user assistant lead : String) (msgs : List PromptMessage) :
    Except ConvError CompletionPromptResult :=
  match renderCompletionMessages user assistant msgs with
  | .error e => .error e
  | .ok body =>
      .ok ⟨lead ++ body ++ assistant ++ ":\n", some ["\n" ++ user ++ ":"]⟩

/- The non-fast-path of the completion converter: consume a leading system
message into the transcript head, then render the remaining messages. -/
def completionSlowPath (user assistant : String) (prompt : List PromptMessage) :
    Except ConvError CompletionPromptResult :=
  match prompt with
  | .system content _ :: rest =>
      completionBody user assistant (content ++ "\n\n") rest
  | _ => completionBody user assistant "" prompt

/- `convertToSparkCompletionPrompt` from
`convert-to-spark-completion-prompt.ts` (`user` and `assistant` are the
label options, defaulting to "user"/"assistant" at the call sites). -/
def convertToSparkCompletionPrompt (prompt : List PromptMessage)
    (inputFormat : InputFormat) (user assistant : String) :
    Except ConvError CompletionPromptResult :=
  match (match inputFormat with
         | .prompt => singleUserText prompt
         | .messages => none) with
  | some t => .ok ⟨t, none⟩
  | none => completionSlowPath user assistant prompt

/- `mapSparkFinishReason` from `map-spark-finish-reason.ts`. -/
inductive FinishReason where
  | stop
  | length
  | toolCalls
  | error
  | unknown
deriving DecidableEq

def mapSparkFinishReason : Option String → FinishReason
  | some "stop" => .stop
  | some "length" => .length
  | some "tool_calls" => .toolCalls
  | _ => .unknown

/- JavaScript numbers as used for usage counters: either an ordinary number
or the not-a-number sentinel (`Number.NaN`). -/
inductive JsNum where
  | nan
  | num (n : Int)
deriving DecidableEq

/- Model of the external `generateId` collaborator (a fresh random id). -/
def generateId : String := "generated-id"

/- `getResponseMetadata` from `get-response-metadata.ts`; the `Date`
constructed from the unix-seconds `created` field is modelled by its
millisecond value. -/
structure ResponseMeta where
  id : Option String
  modelId : Option String
  timestamp : Option Int
deriving DecidableEq

def getResponseMetadata (id : Option String) (model : Option String)
    (created : Option Int) : ResponseMeta :=
  ⟨id, model, created.map (· * 1000)⟩

/- A tool definition handed to `prepareTools`: either a plain function tool
or a provider-defined capability. -/
inductive ToolDef where
  | function (name : String) (description : Option String) (parameters : Json)
  | providerDefined (toolId : String) (name : String) (args : Json)

/- The generic tool-choice option (`mode.toolChoice`). -/
inductive ToolChoiceOpt where
  | auto
  | noneChoice
  | required
  | tool (toolName : String)
deriving DecidableEq

/- The vendor-format tool choice built by `prepareTools`. -/
inductive SparkToolChoice where
  | auto
  | noneChoice
  | required
  | function (name : String)
deriving DecidableEq

/- A vendor-format function tool. -/
structure SparkFunctionTool where
  name : String
  description : Option String
  parameters : Json

/- An `unsupported-tool` call warning carrying the dropped tool. -/
inductive ToolWarning where
  | unsupportedTool (tool : ToolDef)

/- Result record of `prepareTools`. -/
structure PreparedTools where
  tools : Option (List SparkFunctionTool)
  tool_choice : Option SparkToolChoice
  toolWarnings : List ToolWarning

/- The tool loop of `prepareTools`: provider-defined tools are recorded as
warnings and dropped; function tools are converted, both in input order. -/
def prepareToolsLoop : List ToolDef → List ToolWarning × List SparkFunctionTool
  | [] => ([], [])
  | t :: rest =>
      let (ws, ts) := prepareToolsLoop rest
      match t with
      | .providerDefined _ _ _ => (.unsupportedTool t :: ws, ts)
      | .function n d p => (ws, ⟨n, d, p⟩ :: ts)

/- `prepareTools` from `spark-prepare-tools.ts`; the `tools == null` branch
also covers the empty tool list (`mode.tools?.length` is falsy for both). -/
def prepareTools (tools : Option (List ToolDef)) (toolChoice : Option ToolChoiceOpt) :
    PreparedTools :=
  match tools with
  | none => ⟨none, none, []⟩
  | some ts =>
      if ts.isEmpty then ⟨none, none, []⟩
      else
        let (toolWarnings, sparkCompatTools) := prepareToolsLoop ts
        match toolChoice with
        | none => ⟨some sparkCompatTools, none, toolWarnings⟩
        | some .auto => ⟨some sparkCompatTools, some .auto, toolWarnings⟩
        | some .noneChoice => ⟨some sparkCompatTools, some .noneChoice, toolWarnings⟩
        | some .required => ⟨some sparkCompatTools, some .required, toolWarnings⟩
        | some (.tool n) => ⟨some sparkCompatTools, some (.function n), toolWarnings⟩

/- The `usage` object of the chat non-stream response schema: both counters
nullish inside a nullish object. -/
structure ChatUsage where
  prompt_tokens : Option Int
  completion_tokens : Option Int

/- The `tool_calls` object of the chat non-stream response message. -/
structure ChatMessageToolCalls where
  id : Option String
  name : String
  arguments : String

/- The `message` object of the first chat choice. -/
structure ChatChoiceMessage where
  content : Option String
  tool_calls : Option ChatMessageToolCalls

structure ChatChoice where
  message : ChatChoiceMessage
  finish_reason : Option String

/- A schema-validated chat non-stream response body. -/
structure ChatResponseBody where
  id : Option String
  created : Option Int
  model : Option String
  choices : List ChatChoice
  usage : Option ChatUsage

/- A reconstructed tool call in a generate result. -/
structure GenToolCall where
  toolCallId : String
  toolName : String
  args : String
deriving DecidableEq

/- The usage record of a generate result (`Number.NaN` sentinel when a
counter was never reported). -/
structure GenUsage where
  promptTokens : JsNum
  completionTokens : JsNum
deriving DecidableEq

/- The pure result record built by the chat model's `doGenerate` from a
schema-validated body (text, tool calls, finish reason, usage, response
metadata). -/
structure GenResult where
  text : Option String
  toolCalls : Option (List GenToolCall)
  finishReason : FinishReason
  usage : GenUsage
  response : ResponseMeta

/- The response-decoding step of `SparkChatLanguageModel.doGenerate`
(`index.ts`); reading `choices[0]` of an empty choices array would crash in
the source, modelled as `none`. -/
def chatDecodeResponse (body : ChatResponseBody) : Option GenResult :=
  match body.choices.head? with
  | none => none
  | some choice =>
      some
        { text := choice.message.content
          toolCalls :=
            match choice.message.tool_calls with
            | some tc => some [⟨tc.id.getD generateId, tc.name, tc.arguments⟩]
            | none => none
          finishReason := mapSparkFinishReason choice.finish_reason
          usage :=
            ⟨match body.usage with
             | some u => match u.prompt_tokens with
               | some n => .num n
               | none => .nan
             | none => .nan,
             match body.usage with
             | some u => match u.completion_tokens with
               | some n => .num n
               | none => .nan
             | none => .nan⟩
          response := getResponseMetadata body.id body.model body.created }

/- The `usage` object of the completion response schema: both counters
required inside a nullish object. -/
structure CompletionUsage where
  prompt_tokens : Int
  completion_tokens : Int

structure CompletionChoice where
  text : String
  finish_reason : String

/- A schema-validated completion non-stream response body. -/
structure CompletionResponseBody where
  id : Option String
  created : Option Int
  model : Option String
  choices : List CompletionChoice
  usage : Option CompletionUsage

/- The result record built by `SparkCompletionLanguageModel.doGenerate`. -/
structure CompletionGenResult where
  text : String
  usage : GenUsage
  finishReason : FinishReason
  response : ResponseMeta

/- The response-decoding step of `SparkCompletionLanguageModel.doGenerate`. -/
def completionDecodeResponse (body : CompletionResponseBody) :
    Option CompletionGenResult :=
  match body.choices.head? with
  | none => none
  | some choice =>
      some
        { text := choice.text
          usage :=
            ⟨match body.usage with
             | some u => .num u.prompt_tokens
             | none => .nan,
             match body.usage with
             | some u => .num u.completion_tokens
             | none => .nan⟩
          finishReason := mapSparkFinishReason (some choice.finish_reason)
          response := getResponseMetadata body.id body.model body.created }

/- Model of the external `isParsableJson` collaborator (a `JSON.parse`
attempt): a fuel-bounded recursive-descent JSON parser. Each parsing
function returns the unconsumed remainder on success. -/
def jsonWs (c : Char) : Bool :=
  c = ' ' || c = '\n' || c = '\t' || c = '\r'

def skipWs : List Char → List Char
  | [] => []
  | c :: cs => if jsonWs c then skipWs cs else c :: cs

/- A string body after the opening quote: consume until the closing quote,
skipping over backslash escapes. -/
def parseStringBody : List Char → Option (List Char)
  | [] => none
  | '"' :: cs => some cs
  | '\\' :: [] => none
  | '\\' :: _ :: cs => parseStringBody cs
  | _ :: cs => parseStringBody cs

def jsonDigit (c : Char) : Bool :=
  '0' ≤ c && c ≤ '9'

/- Consume a maximal run of digits, returning its length and the rest. -/
def takeDigits : List Char → Nat × List Char
  | [] => (0, [])
  | c :: cs =>
      if jsonDigit c then
        let (n, r) := takeDigits cs
        (n + 1, r)
      else (0, c :: cs)

/- A number after the optional leading minus sign: integer digits, optional
fraction, optional exponent. -/
def parseNumberTail (cs : List Char) : Option (List Char) :=
  let (n1, r1) := takeDigits cs
  if n1 = 0 then none
  else
    let afterFrac : Option (List Char) :=
      match r1 with
      | '.' :: rest =>
          match takeDigits rest with
          | (0, _) => none
          | (_, r) => some r
      | _ => some r1
    match afterFrac with
    | none => none
    | some r2 =>
        match r2 with
        | c :: rest =>
            if c = 'e' || c = 'E' then
              let expDigits :=
                match rest with
                | s :: t => if s = '+' || s = '-' then t else s :: t
                | [] => []
              match takeDigits expDigits with
              | (0, _) => none
              | (_, r) => some r
            else some (c :: rest)
        | [] => some []

/- Parsing positions of the recursive descent: a value, the members of an
object after the first open brace (at a key position), or the elements of an
array (at a value position). -/
inductive JsonPos where
  | value
  | member
  | element

/- One fuel-bounded step of the recursive descent. -/
def parseStep : Nat → JsonPos → List Char → Option (List Char)
  | 0, _, _ => none
  | fuel + 1, .value, cs =>
      (match skipWs cs with
       | 't' :: 'r' :: 'u' :: 'e' :: rest => some rest
       | 'f' :: 'a' :: 'l' :: 's' :: 'e' :: rest => some rest
       | 'n' :: 'u' :: 'l' :: 'l' :: rest => some rest
       | '"' :: rest => parseStringBody rest
       | '\x7b' :: rest =>
           (match skipWs rest with
            | '\x7d' :: r => some r
            | r => parseStep fuel .member r)
       | '[' :: rest =>
           (match skipWs rest with
            | ']' :: r => some r
            | r => parseStep fuel .element r)
       | '-' :: rest => parseNumberTail rest
       | c :: rest => if jsonDigit c then parseNumberTail (c :: rest) else none
       | [] => none)
  | fuel + 1, .member, cs =>
      (match cs with
       | '"' :: rest =>
           (match parseStringBody rest with
            | none => none
            | some r1 =>
                (match skipWs r1 with
                 | ':' :: r2 =>
                     (match parseStep fuel .value r2 with
                      | none => none
                      | some r3 =>
                          (match skipWs r3 with
                           | ',' :: r4 => parseStep fuel .member (skipWs r4)
                           | '\x7d' :: r4 => some r4
                           | _ => none))
                 | _ => none))
       | _ => none)
  | fuel + 1, .element, cs =>
      (match parseStep fuel .value cs with
       | none => none
       | some r =>
           (match skipWs r with
            | ',' :: r2 => parseStep fuel .element r2
            | ']' :: r2 => some r2
            | _ => none))

def isParsableJson (s : String) : Bool :=
  match parseStep (s.length + 1) .value s.data with
  | some rest => (skipWs rest).isEmpty
  | none => false

/- The `function` object of a streamed tool-call delta (both fields
nullish in the chunk schema). -/
structure ChunkToolCallFn where
  name : Option String
  arguments : Option String

/- A streamed `tool_calls` delta (`id` nullish, `type` an optional literal
"function"). -/
structure ChunkToolCall where
  id : Option String
  type : Option String
  fn : ChunkToolCallFn

/- A streamed choice delta; `role` and `reasoning_content` are parsed by the
chunk schema but never read by the transform and are omitted here. -/
structure ChunkDelta where
  content : Option String
  tool_calls : Option ChunkToolCall

structure ChunkChoice where
  delta : Option ChunkDelta
  finish_reason : Option String

structure ChunkValue where
  id : Option String
  created : Option Int
  model : Option String
  choices : List ChunkChoice
  usage : Option ChatUsage

/- One parse attempt arriving at the transform: a schema-validation
failure, a successfully parsed vendor error object, or a successfully
parsed chunk value. -/
inductive Chunk where
  | parseFailure (error : String)
  | errorValue (message : String)
  | value (v : ChunkValue)

/- Slot 0 of the `toolCalls` accumulator array of `doStream`. -/
structure ToolCallSlot where
  id : String
  name : String
  arguments : String
  hasFinished : Bool
deriving DecidableEq

/- The closure-captured per-stream state of the chat `doStream` transform. -/
structure StreamState where
  toolCallSlot : Option ToolCallSlot
  finishReason : FinishReason
  promptTokens : Option Int
  completionTokens : Option Int
  isFirstChunk : Bool
deriving DecidableEq

def initialStreamState : StreamState :=
  ⟨none, .unknown, none, none, true⟩

/- Errors thrown out of the transform (`InvalidResponseDataError`). -/
inductive TransformError where
  | invalidResponseData (message : String)
deriving DecidableEq

/- Normalized stream events emitted by the transform (the metadata
extractor collaborator is not configured, so the finish event carries no
provider metadata). -/
inductive StreamEvent where
  | errorEvent (message : String)
  | responseMetadata (meta : ResponseMeta)
  | textDelta (textDelta : String)
  | toolCallDelta (toolCallId : String) (toolName : String) (argsTextDelta : String)
  | toolCall (toolCallId : String) (toolName : String) (args : String)
  | finish (finishReason : FinishReason) (promptTokens : JsNum)
      (completionTokens : JsNum)
deriving DecidableEq

/- The `delta.tool_calls != null` branch of the transform (`index.ts`,
lines 571-650), translated statement by statement. -/
def processToolCallDelta (st : StreamState) (tc : ChunkToolCall) :
    Except TransformError (List StreamEvent × StreamState) :=
  if tc.type ≠ some "function" then
    .error (.invalidResponseData "Expected 'function' type.")
  else
    match tc.fn.name with
    | none => .error (.invalidResponseData "Expected 'function.name' to be a string.")
    | some name =>
        -- source: `toolCalls[0] = {...}` — slot 0 is assigned anew on every
        -- delta, with the buffer set to this delta's fragment and
        -- `hasFinished: false`
        let slot : ToolCallSlot :=
          { id := tc.id.getD generateId
            name := name
            arguments := tc.fn.arguments.getD ""
            hasFinished := false }
        -- the guard `toolCall.function?.name != null &&
        -- toolCall.function?.arguments != null` holds by construction
        let evs1 : List StreamEvent :=
          if slot.arguments.length > 0 then
            [.toolCallDelta slot.id slot.name slot.arguments]
          else []
        let (evs2, slot) :=
          if isParsableJson slot.arguments then
            ([StreamEvent.toolCall slot.id slot.name slot.arguments],
             { slot with hasFinished := true })
          else ([], slot)
        let slot :=
          match tc.fn.arguments with
          | some frag => { slot with arguments := slot.arguments ++ frag }
          | none => slot
        let evs3 : List StreamEvent :=
          [.toolCallDelta slot.id slot.name (tc.fn.arguments.getD "")]
        let (evs4, slot) :=
          if isParsableJson slot.arguments then
            ([StreamEvent.toolCall slot.id slot.name slot.arguments],
             { slot with hasFinished := true })
          else ([], slot)
        .ok (evs1 ++ evs2 ++ evs3 ++ evs4, { st with toolCallSlot := some slot })

/- The `transform` callback of the chat `doStream` `TransformStream`. -/
def processChunk (st : StreamState) (chunk : Chunk) :
    Except TransformError (List StreamEvent × StreamState) :=
  match chunk with
  | .parseFailure e => .ok ([.errorEvent e], { st with finishReason := .error })
  | .errorValue m => .ok ([.errorEvent m], { st with finishReason := .error })
  | .value v =>
      let (metaEvs, st) :=
        if st.isFirstChunk then
          ([StreamEvent.responseMetadata (getResponseMetadata v.id v.model v.created)],
           { st with isFirstChunk := false })
        else ([], st)
      let st :=
        match v.usage with
        | some u =>
            { st with promptTokens := u.prompt_tokens
                      completionTokens := u.completion_tokens }
        | none => st
      match v.choices.head? with
      | none => .ok (metaEvs, st)
      | some choice =>
          match choice.delta with
          | none => .ok (metaEvs, st)
          | some delta =>
              let textEvs : List StreamEvent :=
                match delta.content with
                | some c => [.textDelta c]
                | none => []
              match delta.tool_calls with
              | none => .ok (metaEvs ++ textEvs, st)
              | some tc =>
                  match processToolCallDelta st tc with
                  | .error e => .error e
                  | .ok (tcEvs, st) => .ok (metaEvs ++ textEvs ++ tcEvs, st)

/- Sequential processing of a finite chunk list; a thrown error aborts the
stream. -/
def processChunks (st : StreamState) :
    List Chunk → Except TransformError (List StreamEvent × StreamState)
  | [] => .ok ([], st)
  | c :: cs =>
      match processChunk st c with
      | .error e => .error e
      | .ok (evs, st') =>
          match processChunks st' cs with
          | .error e => .error e
          | .ok (evs', st'') => .ok (evs ++ evs', st'')

/- The `flush` callback: the single terminal finish event, with the
not-a-number sentinel for counters never observed. -/
def flushEvents (st : StreamState) : List StreamEvent :=
  [.finish st.finishReason
    (match st.promptTokens with
     | some n => .num n
     | none => .nan)
    (match st.completionTokens with
     | some n => .num n
     | none => .nan)]

/- A full normally-completing run of the transform over a finite chunk
sequence: per-chunk events followed by the flush. -/
def runStream (chunks : List Chunk) : Except TransformError (List StreamEvent) :=
  match processChunks initialStreamState chunks with
  | .error e => .error e
  | .ok (evs, st) => .ok (evs ++ flushEvents st)

/- Same, but also exposing the final transform state. -/
def runStreamWithState (chunks : List Chunk) :
    Except TransformError (List StreamEvent × StreamState) :=
  processChunks initialStreamState chunks

/- The simulated-streaming branch of `doStream` (`simulateStreaming`
setting): one non-streaming generate result is replayed as a synthetic
event sequence. `if (result.text)` is JavaScript truthiness, so an empty
text emits no delta. -/
def simulateStream (result : GenResult) : List StreamEvent :=
  [StreamEvent.responseMetadata result.response]
    ++ (match result.text with
        | some t => if t = "" then [] else [StreamEvent.textDelta t]
        | none => [])
    ++ (match result.toolCalls with
        | some tcs => tcs.map fun tc => StreamEvent.toolCall tc.toolCallId tc.toolName tc.args
        | none => [])
    ++ [StreamEvent.finish result.finishReason result.usage.promptTokens
          result.usage.completionTokens]

/- Concatenation of the text-delta fragments of an event list. -/
def concatTextDeltas : List StreamEvent → String
  | [] => ""
  | .textDelta t :: rest => t ++ concatTextDeltas rest
  | _ :: rest => concatTextDeltas rest

/- The number of finish events in an event list. -/
def countFinish : List StreamEvent → Nat
  | [] => 0
  | .finish _ _ _ :: rest => countFinish rest + 1
  | _ :: rest => countFinish rest

/- A chunk carrying a single tool-call delta, as delivered by the vendor
stream. -/
def toolDeltaChunk (id name args : Option String) : Chunk :=
  .value ⟨none, none, none,
    [⟨some ⟨none, some ⟨id, some "function", ⟨name, args⟩⟩⟩, none⟩], none⟩

/- A chunk carrying a plain text delta. -/
def textDeltaChunk (t : String) : Chunk :=
  .value ⟨none, none, none, [⟨some ⟨some t, none⟩, none⟩], none⟩

/-- C6: for `inputFormat = "prompt"` and a prompt that is exactly one user
message containing exactly one text part, `convertToSparkCompletionPrompt`
returns exactly that text string unchanged as the prompt, with no stop
sequences, for any label settings and any attached metadata. -/
theorem completion_fast_path_identity (userLabel assistantLabel t : String)
    (partMeta msgMeta : Meta) :
    convertToSparkCompletionPrompt [.user [.text t partMeta] msgMeta]
        .prompt userLabel assistantLabel
      = .ok ⟨t, none⟩ := rfl

/-- C2, evaluation at the failing input: an assistant message with one text
part and no tool-call part converts to a message whose `tool_calls` field is
present and holds the placeholder call with empty name and empty arguments,
although the claim requires the field to be absent (the source's
`toolCalls ? toolCalls : undefined` is always truthy). -/
theorem assistant_without_tool_call_emits_placeholder :
    convertToSparkChatMessages [.assistant [.text "hi" []] []]
      = .ok [.assistant "hi" (some ⟨⟨"", ""⟩, []⟩) []] := rfl

/-- C1, evaluation at the failing input: streaming the two argument
fragments of the JSON object into slot 0 does not accumulate them. After the
second delta the buffer holds the second fragment appended to itself
(not the concatenation of the two fragments), each delta emitted two
tool-call-delta events, and no terminal tool-call event was ever emitted,
although the concatenation of the fragments is parseable JSON. -/
theorem tool_call_buffer_not_accumulated :
    runStreamWithState
        [toolDeltaChunk (some "call1") (some "f") (some "\x7b\"a\":"),
         toolDeltaChunk (some "call1") (some "f") (some "1\x7d")]
      = .ok ([.responseMetadata ⟨none, none, none⟩,
              .toolCallDelta "call1" "f" "\x7b\"a\":",
              .toolCallDelta "call1" "f" "\x7b\"a\":",
              .toolCallDelta "call1" "f" "1\x7d",
              .toolCallDelta "call1" "f" "1\x7d"],
             ⟨some ⟨"call1", "f", "1\x7d1\x7d", false⟩, .unknown, none, none, false⟩)
    ∧ "\x7b\"a\":" ++ "1\x7d" = "\x7b\"a\":1\x7d"
    ∧ isParsableJson "\x7b\"a\":1\x7d" = true :=
  ⟨rfl, rfl, rfl⟩

/-- C3, evaluation at the failing input: after a delta whose fragment is a
complete JSON object, slot 0 is marked finished; the next delta for the same
slot overwrites the slot and leaves its finished mark reset to `false`, and
a second complete fragment for the slot makes the transform emit the
terminal tool-call event a second time (the slot re-completes). -/
theorem finished_slot_reopened_by_next_delta :
    runStreamWithState [toolDeltaChunk (some "c") (some "f") (some "\x7b\x7d")]
      = .ok ([.responseMetadata ⟨none, none, none⟩,
              .toolCallDelta "c" "f" "\x7b\x7d",
              .toolCall "c" "f" "\x7b\x7d",
              .toolCallDelta "c" "f" "\x7b\x7d"],
             ⟨some ⟨"c", "f", "\x7b\x7d\x7b\x7d", true⟩, .unknown, none, none, false⟩)
    ∧ runStreamWithState
          [toolDeltaChunk (some "c") (some "f") (some "\x7b\x7d"),
           toolDeltaChunk (some "c") (some "f") (some "x")]
        = .ok ([.responseMetadata ⟨none, none, none⟩,
                .toolCallDelta "c" "f" "\x7b\x7d",
                .toolCall "c" "f" "\x7b\x7d",
                .toolCallDelta "c" "f" "\x7b\x7d",
                .toolCallDelta "c" "f" "x",
                .toolCallDelta "c" "f" "x"],
               ⟨some ⟨"c", "f", "xx", false⟩, .unknown, none, none, false⟩)
    ∧ runStream
          [toolDeltaChunk (some "c") (some "f") (some "\x7b\x7d"),
           toolDeltaChunk (some "c") (some "f") (some "\x7b\x7d")]
        = .ok [.responseMetadata ⟨none, none, none⟩,
               .toolCallDelta "c" "f" "\x7b\x7d",
               .toolCall "c" "f" "\x7b\x7d",
               .toolCallDelta "c" "f" "\x7b\x7d",
               .toolCallDelta "c" "f" "\x7b\x7d",
               .toolCall "c" "f" "\x7b\x7d",
               .toolCallDelta "c" "f" "\x7b\x7d",
               .finish .unknown .nan .nan] :=
  ⟨rfl, rfl, rfl⟩

/-- C5, evaluation at the failing input (the specification's own example
chunk sequence): the transform never reads the `finish_reason` carried by a
chunk choice, so the single terminal finish event reports `unknown` even
though the last chunk carried `finish_reason: "stop"`, whose normalization
is `stop`; the usage snapshot is reported correctly. -/
theorem flush_ignores_observed_finish_reason :
    runStream
        [textDeltaChunk "Hel", textDeltaChunk "lo",
         .value ⟨none, none, none, [⟨some ⟨none, none⟩, some "stop"⟩],
                 some ⟨some 3, some 2⟩⟩]
      = .ok [.responseMetadata ⟨none, none, none⟩,
             .textDelta "Hel", .textDelta "lo",
             .finish .unknown (.num 3) (.num 2)]
    ∧ mapSparkFinishReason (some "stop") = .stop
    ∧ FinishReason.unknown ≠ FinishReason.stop :=
  ⟨rfl, rfl, by decide⟩

theorem concatTextDeltas_append (l₁ l₂ : List StreamEvent) :
    concatTextDeltas (l₁ ++ l₂) = concatTextDeltas l₁ ++ concatTextDeltas l₂ := by
  induction l₁ with
  | nil => simp [concatTextDeltas]
  | cons e rest ih => cases e <;> simp [concatTextDeltas, ih, String.append_assoc]

theorem concatTextDeltas_map_toolCall (tcs : List GenToolCall) :
    concatTextDeltas
        (tcs.map fun tc => StreamEvent.toolCall tc.toolCallId tc.toolName tc.args)
      = "" := by
  induction tcs with
  | nil => rfl
  | cons t rest ih => simp [concatTextDeltas, ih]

/-- C7: the event sequence synthesized by the simulated-streaming branch of
`doStream` from a non-streaming generate result is ordered
response-metadata, then text deltas, then tool-call events, then finish;
the concatenation of its text-delta fragments equals the result's text field
(the empty string when the field is absent), and the finish event carries
the result's finish reason and usage. -/
theorem simulated_streaming_equivalence (r : GenResult) :
    concatTextDeltas (simulateStream r) = r.text.getD ""
    ∧ ∃ textEvs toolEvs,
        simulateStream r
          = StreamEvent.responseMetadata r.response
              :: (textEvs ++ (toolEvs
                  ++ [StreamEvent.finish r.finishReason r.usage.promptTokens
                        r.usage.completionTokens]))
          ∧ (∀ e ∈ textEvs, ∃ t, e = StreamEvent.textDelta t)
          ∧ (∀ e ∈ toolEvs, ∃ i n a, e = StreamEvent.toolCall i n a) := by
  obtain ⟨text, toolCalls, fr, us, resp⟩ := r
  constructor
  · cases text with
    | none =>
        cases toolCalls <;>
          simp [simulateStream, concatTextDeltas, concatTextDeltas_append,
            concatTextDeltas_map_toolCall]
    | some t =>
        by_cases ht : t = "" <;> cases toolCalls <;>
          simp [simulateStream, concatTextDeltas, concatTextDeltas_append,
            concatTextDeltas_map_toolCall, ht]
  · refine ⟨(match text with
             | some t => if t = "" then [] else [StreamEvent.textDelta t]
             | none => []),
            (match toolCalls with
             | some tcs =>
                 tcs.map fun tc => StreamEvent.toolCall tc.toolCallId tc.toolName tc.args
             | none => []), ?_, ?_, ?_⟩
    · cases text <;> cases toolCalls <;> simp [simulateStream]
    · cases text with
      | none => simp
      | some t => by_cases ht : t = "" <;> simp [ht]
    · cases toolCalls with
      | none => simp
      | some tcs =>
          intro e he
          simp only [List.mem_map] at he
          obtain ⟨tc, _, rfl⟩ := he
          exact ⟨_, _, _, rfl⟩

theorem processToolCallDelta_name_none (st : StreamState) (tc : ChunkToolCall)
    (hname : tc.fn.name = none) :
    processToolCallDelta st tc
      = .error (.invalidResponseData
          (if tc.type = some "function" then
             "Expected 'function.name' to be a string."
           else "Expected 'function' type.")) := by
  by_cases hty : tc.type = some "function" <;>
    simp [processToolCallDelta, hty, hname]

/-- C9: any successfully parsed chunk whose first choice carries a
tool-call delta with a null or absent function name makes the transform
throw an `InvalidResponseDataError` (for any transform state, so also for a
continuation delta of a tool call whose name an earlier chunk established),
rather than emitting an error stream event. -/
theorem missing_tool_call_name_throws (st : StreamState) (v : ChunkValue)
    (choice : ChunkChoice) (delta : ChunkDelta) (tc : ChunkToolCall)
    (hchoice : v.choices.head? = some choice)
    (hdelta : choice.delta = some delta)
    (htc : delta.tool_calls = some tc)
    (hname : tc.fn.name = none) :
    ∃ msg, processChunk st (Chunk.value v) = .error (.invalidResponseData msg) := by
  obtain ⟨vid, vcr, vmo, vch, vus⟩ := v
  obtain ⟨sl, fr, pt, ct, fc⟩ := st
  simp only at hchoice
  by_cases hty : tc.type = some "function"
  · refine ⟨"Expected 'function.name' to be a string.", ?_⟩
    cases fc <;> cases vus <;>
      simp [processChunk, hchoice, hdelta, htc, processToolCallDelta, hty, hname]
  · refine ⟨"Expected 'function' type.", ?_⟩
    cases fc <;> cases vus <;>
      simp [processChunk, hchoice, hdelta, htc, processToolCallDelta, hty]

/-- C9 witness: the throw at a concrete nameless tool-call delta. -/
theorem missing_tool_call_name_throws_witness :
    (ChunkValue.mk none none none
        [⟨some ⟨none, some ⟨none, some "function", ⟨none, some "\x7b"⟩⟩⟩, none⟩]
        none).choices.head?
      = some ⟨some ⟨none, some ⟨none, some "function", ⟨none, some "\x7b"⟩⟩⟩, none⟩
    ∧ ∃ msg,
        processChunk initialStreamState
          (Chunk.value
            ⟨none, none, none,
             [⟨some ⟨none, some ⟨none, some "function", ⟨none, some "\x7b"⟩⟩⟩, none⟩],
             none⟩)
          = .error (.invalidResponseData msg) :=
  ⟨rfl, missing_tool_call_name_throws initialStreamState _ _ _ _ rfl rfl rfl rfl⟩

/-- C8: in both models' non-stream decoders, a usage counter absent from
the response body normalizes to the not-a-number sentinel and never to
zero — the decoded counter is the sentinel exactly when the corresponding
field is missing, and equals the reported number otherwise. -/
theorem usage_counters_nan_iff_missing :
    (∀ (body : ChatResponseBody) (r : GenResult), chatDecodeResponse body = some r →
       ((r.usage.promptTokens = JsNum.nan
           ↔ body.usage.bind (fun u => u.prompt_tokens) = none)
        ∧ (∀ n, body.usage.bind (fun u => u.prompt_tokens) = some n →
             r.usage.promptTokens = JsNum.num n)
        ∧ (r.usage.completionTokens = JsNum.nan
           ↔ body.usage.bind (fun u => u.completion_tokens) = none)
        ∧ (∀ n, body.usage.bind (fun u => u.completion_tokens) = some n →
             r.usage.completionTokens = JsNum.num n)))
    ∧ (∀ (body : CompletionResponseBody) (r : CompletionGenResult),
         completionDecodeResponse body = some r →
       ((r.usage.promptTokens = JsNum.nan ↔ body.usage = none)
        ∧ (r.usage.completionTokens = JsNum.nan ↔ body.usage = none)
        ∧ (∀ u, body.usage = some u →
             r.usage = ⟨JsNum.num u.prompt_tokens, JsNum.num u.completion_tokens⟩))) := by
  constructor
  · intro body r h
    obtain ⟨bid, bcr, bmo, bch, bus⟩ := body
    cases bch with
    | nil => simp [chatDecodeResponse] at h
    | cons c rest =>
        simp only [chatDecodeResponse, List.head?] at h
        obtain rfl := Option.some.inj h
        cases bus with
        | none => simp
        | some u =>
            obtain ⟨upt, uct⟩ := u
            cases upt <;> cases uct <;> simp
  · intro body r h
    obtain ⟨bid, bcr, bmo, bch, bus⟩ := body
    cases bch with
    | nil => simp [completionDecodeResponse] at h
    | cons c rest =>
        simp only [completionDecodeResponse, List.head?] at h
        obtain rfl := Option.some.inj h
        cases bus <;> simp

/-- C8 witness: the decoders applied to concrete bodies with missing and
with reported usage. -/
theorem usage_counters_nan_iff_missing_witness :
    chatDecodeResponse ⟨none, none, none, [⟨⟨some "hi", none⟩, some "stop"⟩], none⟩
      = some ⟨some "hi", none, .stop, ⟨.nan, .nan⟩, ⟨none, none, none⟩⟩
    ∧ ((⟨some "hi", none, .stop, ⟨JsNum.nan, JsNum.nan⟩,
          ⟨none, none, none⟩⟩ : GenResult).usage.promptTokens = JsNum.nan
        ↔ (Option.none.bind (fun u : ChatUsage => u.prompt_tokens) = none))
    ∧ completionDecodeResponse
        ⟨none, none, none, [⟨"t", "stop"⟩], some ⟨7, 9⟩⟩
      = some ⟨"t", ⟨.num 7, .num 9⟩, .stop, ⟨none, none, none⟩⟩
    ∧ (⟨"t", ⟨JsNum.num 7, JsNum.num 9⟩, .stop,
          ⟨none, none, none⟩⟩ : CompletionGenResult).usage
        = ⟨JsNum.num 7, JsNum.num 9⟩ :=
  ⟨rfl,
   (usage_counters_nan_iff_missing.1
      ⟨none, none, none, [⟨⟨some "hi", none⟩, some "stop"⟩], none⟩
      ⟨some "hi", none, .stop, ⟨.nan, .nan⟩, ⟨none, none, none⟩⟩ rfl).1,
   rfl,
   (usage_counters_nan_iff_missing.2
      ⟨none, none, none, [⟨"t", "stop"⟩], some ⟨7, 9⟩⟩
      ⟨"t", ⟨.num 7, .num 9⟩, .stop, ⟨none, none, none⟩⟩ rfl).2.2 ⟨7, 9⟩ rfl⟩

theorem prepareToolsLoop_all_provider_defined (ts : List ToolDef)
    (hpd : ∀ t ∈ ts, ∃ i n a, t = ToolDef.providerDefined i n a) :
    prepareToolsLoop ts = (ts.map ToolWarning.unsupportedTool, []) := by
  induction ts with
  | nil => rfl
  | cons t rest ih =>
      obtain ⟨i, n, a, rfl⟩ := hpd t (List.mem_cons_self t rest)
      have := ih fun t ht => hpd t (List.mem_cons_of_mem _ ht)
      simp [prepareToolsLoop, this]

/-- C10: for a non-empty tool list consisting only of provider-defined
tools, `prepareTools` returns the empty tool array (not `undefined`), one
unsupported-tool warning per dropped tool in order, and the tool choice
mapped from the given choice (`undefined` when no choice is given). -/
theorem provider_defined_tools_all_dropped (ts : List ToolDef)
    (choice : Option ToolChoiceOpt) (hne : ts ≠ [])
    (hpd : ∀ t ∈ ts, ∃ i n a, t = ToolDef.providerDefined i n a) :
    prepareTools (some ts) choice
      = ⟨some [],
         (match choice with
          | none => none
          | some .auto => some .auto
          | some .noneChoice => some .noneChoice
          | some .required => some .required
          | some (.tool n) => some (.function n)),
         ts.map ToolWarning.unsupportedTool⟩ := by
  have hloop := prepareToolsLoop_all_provider_defined ts hpd
  have hemp : ts.isEmpty = false := by
    cases ts with
    | nil => exact absurd rfl hne
    | cons t rest => rfl
  cases choice with
  | none => simp [prepareTools, hemp, hloop]
  | some c => cases c <;> simp [prepareTools, hemp, hloop]

/-- C10 witness: a concrete all-provider-defined tool list with a specific
tool choice. -/
theorem provider_defined_tools_all_dropped_witness :
    ([ToolDef.providerDefined "wsearch" "search" Json.null] ≠ [])
    ∧ prepareTools (some [ToolDef.providerDefined "wsearch" "search" Json.null])
        (some (.tool "f"))
      = ⟨some [], some (.function "f"),
         [ToolWarning.unsupportedTool
            (ToolDef.providerDefined "wsearch" "search" Json.null)]⟩ :=
  ⟨by simp,
   provider_defined_tools_all_dropped
     [ToolDef.providerDefined "wsearch" "search" Json.null] (some (.tool "f"))
     (by simp)
     (fun t ht => ⟨"wsearch", "search", Json.null, List.mem_singleton.mp ht⟩)⟩

theorem renderUserParts_ne_invalidPrompt (parts : List UserPart) (m : String) :
    renderUserParts parts ≠ .error (.invalidPrompt m) := by
  induction parts with
  | nil => simp [renderUserParts]
  | cons p rest ih =>
      cases p with
      | text t pm =>
          cases h : renderUserParts rest with
          | ok s => simp [renderUserParts, h, Except.map]
          | error e =>
              rw [h] at ih
              simp only [renderUserParts, h, Except.map]
              intro hc
              injection hc with hc
              exact ih (by rw [hc])
      | image s pm => simp [renderUserParts]
      | file pm => simp [renderUserParts]

theorem renderAssistantParts_ne_invalidPrompt (parts : List AssistantPart) (m : String) :
    renderAssistantParts parts ≠ .error (.invalidPrompt m) := by
  induction parts with
  | nil => simp [renderAssistantParts]
  | cons p rest ih =>
      cases p with
      | text t pm =>
          cases h : renderAssistantParts rest with
          | ok s => simp [renderAssistantParts, h, Except.map]
          | error e =>
              rw [h] at ih
              simp only [renderAssistantParts, h, Except.map]
              intro hc
              injection hc with hc
              exact ih (by rw [hc])
      | toolCall i n a pm => simp [renderAssistantParts]

theorem renderCompletionMessages_error_of_mem_system (u a : String)
    (l : List PromptMessage) (c : String) (mm : Meta)
    (hmem : PromptMessage.system c mm ∈ l) :
    ∃ e, renderCompletionMessages u a l = .error e := by
  induction l with
  | nil => simp at hmem
  | cons h t ih =>
      cases h with
      | system c2 m2 => exact ⟨_, rfl⟩
      | user parts m2 =>
          have hmem2 : PromptMessage.system c mm ∈ t := by
            rcases List.mem_cons.mp hmem with h1 | h1
            · cases h1
            · exact h1
          obtain ⟨e, he⟩ := ih hmem2
          cases hu : renderUserParts parts with
          | error e2 => exact ⟨e2, by simp [renderCompletionMessages, hu]⟩
          | ok s => exact ⟨e, by simp [renderCompletionMessages, hu, he]⟩
      | assistant parts m2 =>
          have hmem2 : PromptMessage.system c mm ∈ t := by
            rcases List.mem_cons.mp hmem with h1 | h1
            · cases h1
            · exact h1
          obtain ⟨e, he⟩ := ih hmem2
          cases hu : renderAssistantParts parts with
          | error e2 => exact ⟨e2, by simp [renderCompletionMessages, hu]⟩
          | ok s => exact ⟨e, by simp [renderCompletionMessages, hu, he]⟩
      | tool parts m2 => exact ⟨_, rfl⟩

theorem renderCompletionMessages_ne_invalidPrompt (u a : String)
    (l : List PromptMessage)
    (hnos : ∀ c mm, PromptMessage.system c mm ∉ l) (m : String) :
    renderCompletionMessages u a l ≠ .error (.invalidPrompt m) := by
  induction l with
  | nil => simp [renderCompletionMessages]
  | cons h t ih =>
      have hnos2 : ∀ c mm, PromptMessage.system c mm ∉ t := fun c mm hc =>
        hnos c mm (List.mem_cons_of_mem _ hc)
      cases h with
      | system c2 m2 => exact absurd (List.mem_cons_self _ _) (hnos c2 m2)
      | user parts m2 =>
          cases hu : renderUserParts parts with
          | error e2 =>
              simp only [renderCompletionMessages, hu]
              intro hc
              injection hc with hc
              exact renderUserParts_ne_invalidPrompt parts m (by rw [hu, hc])
          | ok s =>
              cases ht : renderCompletionMessages u a t with
              | error e2 =>
                  simp only [renderCompletionMessages, hu, ht]
                  intro hc
                  injection hc with hc
                  exact (ih hnos2) (by rw [ht, hc])
              | ok s2 => simp [renderCompletionMessages, hu, ht]
      | assistant parts m2 =>
          cases hu : renderAssistantParts parts with
          | error e2 =>
              simp only [renderCompletionMessages, hu]
              intro hc
              injection hc with hc
              exact renderAssistantParts_ne_invalidPrompt parts m (by rw [hu, hc])
          | ok s =>
              cases ht : renderCompletionMessages u a t with
              | error e2 =>
                  simp only [renderCompletionMessages, hu, ht]
                  intro hc
                  injection hc with hc
                  exact (ih hnos2) (by rw [ht, hc])
              | ok s2 => simp [renderCompletionMessages, hu, ht]
      | tool parts m2 => simp [renderCompletionMessages]

theorem completionBody_error_of_render_error (u a lead : String)
    (l : List PromptMessage) (e : ConvError)
    (h : renderCompletionMessages u a l = .error e) :
    completionBody u a lead l = .error e := by
  simp [completionBody, h]

theorem completionBody_ne_invalidPrompt (u a lead : String)
    (l : List PromptMessage)
    (h : ∀ m, renderCompletionMessages u a l ≠ .error (.invalidPrompt m))
    (m : String) :
    completionBody u a lead l ≠ .error (.invalidPrompt m) := by
  cases hr : renderCompletionMessages u a l with
  | error e =>
      simp only [completionBody, hr]
      intro hc
      injection hc with hc
      exact h m (by rw [hr, hc])
  | ok s => simp [completionBody, hr]

theorem completionSlowPath_error_of_system_in_tail (u a : String)
    (h0 : PromptMessage) (t : List PromptMessage) (c : String) (mm : Meta)
    (hmem : PromptMessage.system c mm ∈ t) :
    ∃ e, completionSlowPath u a (h0 :: t) = .error e := by
  cases h0 with
  | system c0 m0 =>
      obtain ⟨e, he⟩ := renderCompletionMessages_error_of_mem_system u a t c mm hmem
      exact ⟨e, show completionBody u a (c0 ++ "\n\n") t = .error e from
        completionBody_error_of_render_error u a _ t e he⟩
  | user parts m0 =>
      obtain ⟨e, he⟩ := renderCompletionMessages_error_of_mem_system u a
        (PromptMessage.user parts m0 :: t) c mm (List.mem_cons_of_mem _ hmem)
      exact ⟨e, show completionBody u a "" (PromptMessage.user parts m0 :: t) = .error e from
        completionBody_error_of_render_error u a "" _ e he⟩
  | assistant parts m0 =>
      obtain ⟨e, he⟩ := renderCompletionMessages_error_of_mem_system u a
        (PromptMessage.assistant parts m0 :: t) c mm (List.mem_cons_of_mem _ hmem)
      exact ⟨e, show completionBody u a "" (PromptMessage.assistant parts m0 :: t) = .error e from
        completionBody_error_of_render_error u a "" _ e he⟩
  | tool parts m0 =>
      obtain ⟨e, he⟩ := renderCompletionMessages_error_of_mem_system u a
        (PromptMessage.tool parts m0 :: t) c mm (List.mem_cons_of_mem _ hmem)
      exact ⟨e, show completionBody u a "" (PromptMessage.tool parts m0 :: t) = .error e from
        completionBody_error_of_render_error u a "" _ e he⟩

theorem completionSlowPath_ne_invalidPrompt (u a : String)
    (p : List PromptMessage)
    (hno : ∀ (i : Nat) (hi : i < p.length), i ≠ 0 →
             ∀ c mm, p.get ⟨i, hi⟩ ≠ PromptMessage.system c mm)
    (m : String) :
    completionSlowPath u a p ≠ .error (.invalidPrompt m) := by
  cases p with
  | nil =>
      simp [completionSlowPath, completionBody, renderCompletionMessages]
  | cons h0 t =>
      have hnot : ∀ c mm, PromptMessage.system c mm ∉ t := by
        intro c mm hc
        obtain ⟨⟨j, hj⟩, hg⟩ := List.mem_iff_get.mp hc
        exact hno (j + 1) (Nat.succ_lt_succ hj) (Nat.succ_ne_zero j) c mm hg
      cases h0 with
      | system c0 m0 =>
          exact show completionBody u a (c0 ++ "\n\n") t ≠ _ from
            completionBody_ne_invalidPrompt u a _ t
              (renderCompletionMessages_ne_invalidPrompt u a t hnot) m
      | user parts m0 =>
          refine show completionBody u a "" (PromptMessage.user parts m0 :: t) ≠ _ from
            completionBody_ne_invalidPrompt u a "" _
              (renderCompletionMessages_ne_invalidPrompt u a _ ?_) m
          intro c mm hc
          rcases List.mem_cons.mp hc with h1 | h1
          · cases h1
          · exact hnot c mm h1
      | assistant parts m0 =>
          refine show completionBody u a "" (PromptMessage.assistant parts m0 :: t) ≠ _ from
            completionBody_ne_invalidPrompt u a "" _
              (renderCompletionMessages_ne_invalidPrompt u a _ ?_) m
          intro c mm hc
          rcases List.mem_cons.mp hc with h1 | h1
          · cases h1
          · exact hnot c mm h1
      | tool parts m0 =>
          refine show completionBody u a "" (PromptMessage.tool parts m0 :: t) ≠ _ from
            completionBody_ne_invalidPrompt u a "" _
              (renderCompletionMessages_ne_invalidPrompt u a _ ?_) m
          intro c mm hc
          rcases List.mem_cons.mp hc with h1 | h1
          · cases h1
          · exact hnot c mm h1

theorem convertUserParts_ne_invalidPrompt (parts : List UserPart) (m : String) :
    convertUserParts parts ≠ .error (.invalidPrompt m) := by
  induction parts with
  | nil => simp [convertUserParts]
  | cons p rest ih =>
      cases p with
      | text t pm =>
          cases h : convertUserParts rest with
          | ok s => simp [convertUserParts, convertUserPart, h]
          | error e =>
              rw [h] at ih
              simp only [convertUserParts, convertUserPart, h]
              intro hc
              injection hc with hc
              exact ih (by rw [hc])
      | image s pm =>
          cases s <;>
            · cases h : convertUserParts rest with
              | ok sres => simp [convertUserParts, convertUserPart, h]
              | error e =>
                  rw [h] at ih
                  simp only [convertUserParts, convertUserPart, h]
                  intro hc
                  injection hc with hc
                  exact ih (by rw [hc])
      | file pm => simp [convertUserParts, convertUserPart]

theorem convertUserPartsMap_ne_invalidPrompt (parts : List UserPart)
    (meta : Meta) (m : String) :
    ((convertUserParts parts).map fun ps => [SparkMessage.userParts ps meta])
      ≠ .error (.invalidPrompt m) := by
  cases h : convertUserParts parts with
  | ok s => simp [h, Except.map]
  | error e =>
      simp only [h, Except.map]
      intro hc
      injection hc with hc
      exact convertUserParts_ne_invalidPrompt parts m (by rw [h, hc])

theorem convertChatMessage_ne_invalidPrompt (msg : PromptMessage) (m : String) :
    convertChatMessage msg ≠ .error (.invalidPrompt m) := by
  cases msg with
  | system c mm => simp [convertChatMessage]
  | assistant parts mm => simp [convertChatMessage]
  | tool parts mm => simp [convertChatMessage]
  | user parts mm =>
      cases parts with
      | nil => exact convertUserPartsMap_ne_invalidPrompt [] mm m
      | cons hd tl =>
          cases hd with
          | text t pm =>
              cases tl with
              | nil => simp [convertChatMessage]
              | cons h2 t2 =>
                  exact convertUserPartsMap_ne_invalidPrompt
                    (UserPart.text t pm :: h2 :: t2) mm m
          | image s pm =>
              exact convertUserPartsMap_ne_invalidPrompt (UserPart.image s pm :: tl) mm m
          | file pm =>
              exact convertUserPartsMap_ne_invalidPrompt (UserPart.file pm :: tl) mm m

theorem convertChatMessagesGo_ne_invalidPrompt (p : List PromptMessage) (m : String) :
    convertChatMessagesGo p ≠ .error (.invalidPrompt m) := by
  induction p with
  | nil => simp [convertChatMessagesGo]
  | cons msg rest ih =>
      cases hm : convertChatMessage msg with
      | error e =>
          simp only [convertChatMessagesGo, hm]
          intro hc
          injection hc with hc
          exact convertChatMessage_ne_invalidPrompt msg m (by rw [hm, hc])
      | ok ms =>
          cases hr : convertChatMessagesGo rest with
          | error e =>
              rw [hr] at ih
              simp only [convertChatMessagesGo, hm, hr]
              intro hc
              injection hc with hc
              exact ih (by rw [hc])
          | ok tail => simp [convertChatMessagesGo, hm, hr]

/-- C4 counterexample: a system message at index 1 does not raise the
prompt-shape error — `convertToSparkChatMessages` converts it without any
error, and `convertToSparkCompletionPrompt` can fail with a different error
(unsupported images) raised by an earlier message instead of the
prompt-shape `InvalidPromptError`. -/
theorem system_after_first_counterexample :
    convertToSparkChatMessages [.user [.text "hi" []] [], .system "sys" []]
      = .ok [.userStr "hi" [], .system "sys" []]
    ∧ convertToSparkCompletionPrompt
        [.user [.image (.url "http://img") []] [], .system "sys" []]
        .messages "user" "assistant"
      = .error (.unsupportedFunctionality "images") :=
  ⟨rfl, rfl⟩

/-- C4 amended: only `convertToSparkCompletionPrompt` enforces system
placement. There, a system message at an index other than 0 always makes the
conversion throw (the prompt-shape `InvalidPromptError` unless an earlier
message throws first), and a prompt with no system message beyond index 0
never produces the prompt-shape error; `convertToSparkChatMessages` performs
no placement check and never raises the prompt-shape error at all. -/
theorem system_placement_amended :
    (∀ (p : List PromptMessage) (fmt : InputFormat) (u a : String) (i : Nat)
        (hi : i < p.length), i ≠ 0 →
        (∃ c mm, p.get ⟨i, hi⟩ = PromptMessage.system c mm) →
        ∃ e, convertToSparkCompletionPrompt p fmt u a = .error e)
    ∧ (∀ (p : List PromptMessage) (fmt : InputFormat) (u a : String),
        (∀ (i : Nat) (hi : i < p.length), i ≠ 0 →
           ∀ c mm, p.get ⟨i, hi⟩ ≠ PromptMessage.system c mm) →
        ∀ m, convertToSparkCompletionPrompt p fmt u a ≠ .error (.invalidPrompt m))
    ∧ (∀ (p : List PromptMessage) (m : String),
        convertToSparkChatMessages p ≠ .error (.invalidPrompt m)) := by
  refine ⟨?_, ?_, ?_⟩
  · intro p fmt u a i hi h0 hsys
    obtain ⟨c, mm, hget⟩ := hsys
    obtain ⟨j, rfl⟩ : ∃ j, i = j + 1 :=
      ⟨i - 1, (Nat.succ_pred_eq_of_pos (Nat.pos_of_ne_zero h0)).symm⟩
    cases p with
    | nil => exact absurd hi (by simp)
    | cons h0msg t =>
        have hj : j < t.length := Nat.lt_of_succ_lt_succ (by simpa using hi)
        have hget2 : t.get ⟨j, hj⟩ = PromptMessage.system c mm := hget
        have hmem : PromptMessage.system c mm ∈ t := hget2 ▸ t.get_mem j hj
        cases t with
        | nil => exact absurd hj (by simp)
        | cons h1 t2 =>
            have hfast :
                (match fmt with
                 | InputFormat.prompt => singleUserText (h0msg :: h1 :: t2)
                 | InputFormat.messages => none) = none := by
              cases fmt <;> rfl
            obtain ⟨e, he⟩ :=
              completionSlowPath_error_of_system_in_tail u a h0msg (h1 :: t2) c mm hmem
            exact ⟨e, by simp [convertToSparkCompletionPrompt, hfast, he]⟩
  · intro p fmt u a hno m
    cases fmt with
    | messages =>
        simp only [convertToSparkCompletionPrompt]
        exact completionSlowPath_ne_invalidPrompt u a p hno m
    | prompt =>
        cases hs : singleUserText p with
        | some t => simp [convertToSparkCompletionPrompt, hs]
        | none =>
            simp only [convertToSparkCompletionPrompt, hs]
            exact completionSlowPath_ne_invalidPrompt u a p hno m
  · intro p m
    exact convertChatMessagesGo_ne_invalidPrompt p m

/-- C4 amended witness: the completion converter at a concrete misplaced
system message, at a concrete well-placed one, and the chat converter at a
concrete system-only prompt. -/
theorem system_placement_amended_witness :
    (∃ e, convertToSparkCompletionPrompt
        [.user [.text "hi" []] [], .system "s" []] .messages "user" "assistant"
      = .error e)
    ∧ convertToSparkCompletionPrompt
        [.system "s" [], .user [.text "hi" []] []] .messages "user" "assistant"
      ≠ .error (.invalidPrompt "boom")
    ∧ convertToSparkChatMessages [.system "s" []] ≠ .error (.invalidPrompt "boom") :=
  ⟨system_placement_amended.1
      [.user [.text "hi" []] [], .system "s" []] .messages "user" "assistant" 1
      (by simp) (by simp) ⟨"s", [], rfl⟩,
   system_placement_amended.2.1
      [.system "s" [], .user [.text "hi" []] []] .messages "user" "assistant"
      (by
        intro i hi h0 c mm
        rcases i with _ | _ | i
        · exact absurd rfl h0
        · exact fun h => PromptMessage.noConfusion h
        · simp at hi
          omega)
      "boom",
   system_placement_amended.2.2 [.system "s" []] "boom"⟩

end Spark
